import Mathlib

/-!
Verification of the Partner Compatibility & Spatial Layout Engine
(`src/components/matching/RadarMatching.tsx`).

The engine has three parts, embedded below from the source:
* `calculateSmartCompatibility` — the multi-factor compatibility scorer;
* the ranking pipeline of `fetchPotentialPartners` / `startRadarScan`
  (self-exclusion filter, scoring, stable descending sort, truncation);
* `adjustPositions` — the iterative pairwise-repulsion collision
  avoidance over radar positions, together with `getCompatibilityRing`
  and the ring-radius table of `calculateRadarPositions`.

Strings are compared the way JavaScript does
(`a.toLowerCase().includes(b.toLowerCase())`); profile fields that may be
absent in the stored record are `Option`s, and JavaScript `===` on two
absent fields (`undefined === undefined`) is equality of `Option`s.
Numeric scoring is over `ℚ` (the weights 0.4 / 0.3 / 0.2 are exact
decimals), `Math.round` is `⌊q + 1/2⟋`-rounding, and the geometry of the
layout pass is over `ℝ` with `Real.sqrt`, `Real.cos`, `Real.sin` and
`Complex.arg` (Math.atan2 dy dx is the argument of the complex number
dx + dy·i, including atan2(0,0) = 0 = arg 0).
-/

/-- Is the first list a leading segment of the second?  (Helper for the
JavaScript `String.prototype.includes` containment test.) -/
def leadsWith : List Char → List Char → Bool
  | [], _ => true
  | _ :: _, [] => false
  | a :: as, b :: bs => a == b && leadsWith as bs

/-- Does the second list occur contiguously inside the first?  (List-level
substring occurrence.) -/
def hasSub : List Char → List Char → Bool
  | hay, pat =>
    leadsWith pat hay ||
      match hay with
      | [] => false
      | _ :: t => hasSub t pat

/-- JavaScript `s.toLowerCase()` on the character content of `s`. -/
def lowerChars (s : String) : List Char := s.toList.map Char.toLower

/-- JavaScript `a.toLowerCase().includes(b.toLowerCase())`: the lowered
`b` occurs as a contiguous substring of the lowered `a` (the empty string
is included in everything). -/
def strIncludesCI (a b : String) : Bool := hasSub (lowerChars a) (lowerChars b)

/-- The fuzzy subject comparison of the scorer:
`userSubject.toLowerCase().includes(subject.toLowerCase()) ||
 subject.toLowerCase().includes(userSubject.toLowerCase())`. -/
def subjectsOverlap (userSubject subject : String) : Bool :=
  strIncludesCI userSubject subject || strIncludesCI subject userSubject

/-- A user profile record as read from the store.  Fields that a stored
record may lack are `Option`; `none` models JavaScript `undefined`. -/
structure Profile where
  id : String
  university : Option String
  faculty : Option String
  city : Option String
  country : Option String
  yearOfStudy : Int
  subjects : Option (List String)
deriving DecidableEq, Repr

/-- `currentUserProfile.subjects?.some(userSubject => ...)` applied to one
candidate subject: with an absent requester subject list the optional
chain yields `undefined`, which is falsy. -/
def matchesRequesterSubjects (rsubs : Option (List String)) (subject : String) : Bool :=
  match rsubs with
  | none => false
  | some us => us.any fun userSubject => subjectsOverlap userSubject subject

/-- `partner.subjects?.filter(...) || []` from `calculateSmartCompatibility`. -/
def commonSubjects (r c : Profile) : List String :=
  match c.subjects with
  | none => []
  | some cs => cs.filter (matchesRequesterSubjects r.subjects)

/-- `xs?.length || 1`: an absent list, and an empty list (whose length 0 is
falsy), both give 1. -/
def lengthOr1 : Option (List String) → Nat
  | none => 1
  | some l => if l.length = 0 then 1 else l.length

/-- Subject component of the score (before rounding):
`(commonSubjects.length / Math.max(partner.subjects?.length || 1,
currentUserProfile.subjects?.length || 1)) * 100`. -/
def subjectScoreQ (r c : Profile) : ℚ :=
  (((commonSubjects r c).length : ℚ) /
    ((max (lengthOr1 c.subjects) (lengthOr1 r.subjects) : ℕ) : ℚ)) * 100

/-- Institution component: same university → 100 (the nested faculty test
re-assigns 100, a no-op kept from the source), different university → 60. -/
def institutionScoreQ (r c : Profile) : ℚ :=
  if c.university = r.university then
    (if c.faculty = r.faculty then 100 else 100)
  else 60

/-- Location component: same city → 100, else same country → 70, else 30. -/
def locationScoreQ (r c : Profile) : ℚ :=
  if c.city = r.city then 100
  else if c.country = r.country then 70
  else 30

/-- Year-of-study bonus: `Math.abs(partner.yearOfStudy -
currentUserProfile.yearOfStudy) <= 1 ? 10 : 0`. -/
def yearBonus (r c : Profile) : ℚ :=
  if (c.yearOfStudy - r.yearOfStudy).natAbs ≤ 1 then 10 else 0

/-- The unrounded total:
`subjectScore * 0.4 + institutionScore * 0.3 + locationScore * 0.2 + yearBonus`. -/
def totalScoreQ (r c : Profile) : ℚ :=
  subjectScoreQ r c * (0.4 : ℚ) + institutionScoreQ r c * (0.3 : ℚ) +
    locationScoreQ r c * (0.2 : ℚ) + yearBonus r c

/-- JavaScript `Math.round` on the (always nonnegative) scores: round half
up, i.e. `⌊q + 1/2⌋`. -/
def jsRound (q : ℚ) : Int := Int.floor (q + 1/2)

/-- The record returned by `calculateSmartCompatibility`. -/
structure Breakdown where
  total : Int
  subject : Int
  institution : Int
  location : Int
deriving DecidableEq, Repr

/-- `calculateSmartCompatibility(partner)` with the requester passed
explicitly: the rounded subject/institution/location components and total. -/
def calculateSmartCompatibility (r c : Profile) : Breakdown :=
  { total := jsRound (totalScoreQ r c)
    subject := jsRound (subjectScoreQ r c)
    institution := jsRound (institutionScoreQ r c)
    location := jsRound (locationScoreQ r c) }

/-- The self-exclusion filter of `fetchPotentialPartners`:
`childSnapshot.key !== currentUserProfile.id`. -/
def excludeSelf (r : Profile) (pool : List Profile) : List Profile :=
  pool.filter fun c => c.id != r.id

/-- The sort comparator of `startRadarScan`,
`(a, b) => (b.smartCompatibility || 0) - (a.smartCompatibility || 0)`,
as the Boolean "a may come before b" relation of a stable sort
(ECMAScript `Array.prototype.sort` is specified to be stable). -/
def scoreDesc (a b : Profile × Breakdown) : Bool :=
  decide (b.2.total ≤ a.2.total)

/-- The `potentialPartners.map(partner => ...)` step of `startRadarScan`:
pair every partner with its compatibility breakdown, in pool order. -/
def scoreAll (r : Profile) (partners : List Profile) : List (Profile × Breakdown) :=
  partners.map fun c => (c, calculateSmartCompatibility r c)

/-- The `smartMatches` computation of `startRadarScan`: score every
partner, sort by total descending (stable), keep the top 6
(`.slice(0, 6)`). -/
def smartMatches (r : Profile) (partners : List Profile) : List (Profile × Breakdown) :=
  ((scoreAll r partners).mergeSort scoreDesc).take 6

/-- The whole ranking pipeline: the pool handed back by
`fetchPotentialPartners` (self excluded) fed into `startRadarScan`'s
scoring, sorting and truncation. -/
def rank (r : Profile) (pool : List Profile) : List (Profile × Breakdown) :=
  smartMatches r (excludeSelf r pool)

/-- `getCompatibilityRing`: ≥ 90 → ring 0, ≥ 80 → ring 1, else ring 2. -/
def getCompatibilityRing (compatibility : Int) : Nat :=
  if compatibility ≥ 90 then 0 else if compatibility ≥ 80 then 1 else 2

/-- The normalized radius table of `calculateRadarPositions`:
`ring === 0 ? 0.25 : ring === 1 ? 0.4 : 0.6`. -/
def ringRadius (ring : Nat) : ℚ :=
  if ring = 0 then 0.25 else if ring = 1 then 0.4 else 0.6

/-! ## Radial layout: collision avoidance (`adjustPositions`)

Positions live on the real plane; `Math.sqrt`, `Math.atan2`, `Math.cos`,
`Math.sin` are the corresponding real functions, with
`Math.atan2 dy dx = Complex.arg (dx + dy * I)` (both conventions send the
origin to angle 0). -/

/-- `const MARGIN = 10` — minimum space between points. -/
def MARGIN : ℝ := 10

/-- `const MAX_ITERATIONS = 50`. -/
def MAX_ITERATIONS : Nat := 50

/-- One radar position `{x, y, id}`. -/
structure Pos where
  x : ℝ
  y : ℝ
  id : String

/-- `Math.sqrt(dx * dx + dy * dy)` for the pair (p, q), with
`dx = p.x - q.x`, `dy = p.y - q.y`. -/
noncomputable def distR (p q : Pos) : ℝ :=
  Real.sqrt ((p.x - q.x) * (p.x - q.x) + (p.y - q.y) * (p.y - q.y))

/-- The repulsion update of `adjustPositions` applied to the pair
(positions[j], positions[k]): compute `angle = Math.atan2(dy, dx)` and
`force = (MARGIN - distance) / 2`, then move `j` by `+force` and `k` by
`-force` along that angle. -/
noncomputable def repelPair (pj pk : Pos) : Pos × Pos :=
  let dx := pj.x - pk.x
  let dy := pj.y - pk.y
  let angle := Complex.arg ⟨dx, dy⟩
  let force := (MARGIN - Real.sqrt (dx * dx + dy * dy)) / 2
  ({ pj with x := pj.x + Real.cos angle * force, y := pj.y + Real.sin angle * force },
   { pk with x := pk.x - Real.cos angle * force, y := pk.y - Real.sin angle * force })

section LayoutDefs

open Classical

/-- The body of the inner double loop of `adjustPositions` for one index
pair (j, k): if the two points are closer than `MARGIN`, flag the
collision and apply the repulsion to both, otherwise leave the state
alone.  The state threads the (mutable, in the source) position array and
the `hasCollision` flag. -/
noncomputable def doPair (s : Array Pos × Bool) (j k : Nat) : Array Pos × Bool :=
  if hjk : j < s.1.size ∧ k < s.1.size then
    if distR (s.1.get ⟨j, hjk.1⟩) (s.1.get ⟨k, hjk.2⟩) < MARGIN then
      ((s.1.set ⟨j, hjk.1⟩
          (repelPair (s.1.get ⟨j, hjk.1⟩) (s.1.get ⟨k, hjk.2⟩)).1).set
        ⟨k, by simpa using hjk.2⟩
          (repelPair (s.1.get ⟨j, hjk.1⟩) (s.1.get ⟨k, hjk.2⟩)).2, true)
    else s
  else s

/-- The index pairs visited by the double loop
`for (j = 0; ...) for (k = j + 1; ...)`, in visiting order. -/
def pairIdx (n : Nat) : List (Nat × Nat) :=
  (List.range n).flatMap fun j => ((List.range n).drop (j + 1)).map fun k => (j, k)

/-- One full pass of the double loop of `adjustPositions`, starting with
`hasCollision = false`. -/
noncomputable def onePass (ps : Array Pos) : Array Pos × Bool :=
  (pairIdx ps.size).foldl (fun s p => doPair s p.1 p.2) (ps, false)

/-- The outer `for (i = 0; i < MAX_ITERATIONS; i++)` loop with its
`if (!hasCollision) break`: run passes while collisions are found, up to
the given fuel; also count how many passes actually ran. -/
noncomputable def runPasses : Nat → Array Pos → Array Pos × Nat
  | 0, ps => (ps, 0)
  | fuel + 1, ps =>
    let r := onePass ps
    if r.2 then
      let q := runPasses fuel r.1
      (q.1, q.2 + 1)
    else (r.1, 1)

/-- `adjustPositions`: the positions returned after the bounded
collision-avoidance loop. -/
noncomputable def adjustPositions (ps : Array Pos) : Array Pos :=
  (runPasses MAX_ITERATIONS ps).1

/-- Number of passes the loop of `adjustPositions` executes before
returning (equals `MAX_ITERATIONS` iff no early exit happened, except
that a clean final pass also counts). -/
noncomputable def adjustIterations (ps : Array Pos) : Nat :=
  (runPasses MAX_ITERATIONS ps).2

end LayoutDefs

/-- Every unordered pair of stored positions is at least `MARGIN` apart. -/
def farApart (ps : Array Pos) : Prop :=
  ∀ j k (hj : j < ps.size) (hk : k < ps.size), j < k →
    MARGIN ≤ distR (ps.get ⟨j, hj⟩) (ps.get ⟨k, hk⟩)

/-! ## Concrete profiles used by individual claims -/

/-- The requester of the spec's concrete scenario. -/
def reqC1 : Profile :=
  { id := "r", university := some "A", faculty := none, city := some "X",
    country := some "C1", yearOfStudy := 2,
    subjects := some ["Calculus", "Physics"] }

/-- The candidate of the spec's concrete scenario. -/
def candC1 : Profile :=
  { id := "c", university := some "A", faculty := none, city := some "X",
    country := some "C1", yearOfStudy := 2, subjects := some ["Calculus II"] }

/-- A profile with the given identifier and every optional field absent. -/
def bareProfile (n : String) : Profile :=
  { id := n, university := none, faculty := none, city := none,
    country := none, yearOfStudy := 0, subjects := none }

/-- A pool of seven distinct candidates, used to show the truncation
limit is the hardcoded 6. -/
def poolSeven : List Profile :=
  [bareProfile "a", bareProfile "b", bareProfile "c", bareProfile "d",
   bareProfile "e", bareProfile "f", bareProfile "g"]

/-- A requester knowing one subject, for the subject-monotonicity witness. -/
def reqC8 : Profile :=
  { id := "r", university := none, faculty := none, city := none,
    country := none, yearOfStudy := 0, subjects := some ["Calculus"] }

/-- A candidate with an empty subject list, for the subject-monotonicity
witness. -/
def candC8 : Profile :=
  { id := "c", university := none, faculty := none, city := none,
    country := none, yearOfStudy := 0, subjects := some [] }

/-! ## Helper lemmas about the scorer -/

theorem jsRound_nonneg {q : ℚ} (h : 0 ≤ q) : 0 ≤ jsRound q := by
  unfold jsRound
  exact Int.le_floor.2 (by push_cast; linarith)

theorem jsRound_le_int {q : ℚ} {n : ℤ} (h : q ≤ (n : ℚ)) : jsRound q ≤ n := by
  unfold jsRound
  have h2 : (⌊q + 1/2⌋ : ℤ) ≤ ⌊(n : ℚ) + 1/2⌋ := Int.floor_le_floor (by linarith)
  have h3 : ⌊(n : ℚ) + 1/2⌋ = n := by
    rw [Int.floor_int_add]
    norm_num
  omega

theorem jsRound_mono {p q : ℚ} (h : p ≤ q) : jsRound p ≤ jsRound q := by
  unfold jsRound
  exact Int.floor_le_floor (by linarith)

theorem institutionScoreQ_cases (r c : Profile) :
    institutionScoreQ r c = 60 ∨ institutionScoreQ r c = 100 := by
  unfold institutionScoreQ
  split_ifs <;> simp

theorem locationScoreQ_cases (r c : Profile) :
    locationScoreQ r c = 30 ∨ locationScoreQ r c = 70 ∨ locationScoreQ r c = 100 := by
  unfold locationScoreQ
  split_ifs <;> simp

theorem yearBonus_cases (r c : Profile) : yearBonus r c = 0 ∨ yearBonus r c = 10 := by
  unfold yearBonus
  split_ifs <;> simp

theorem lengthOr1_pos (o : Option (List String)) : 1 ≤ lengthOr1 o := by
  cases o with
  | none => simp [lengthOr1]
  | some l =>
    simp only [lengthOr1]
    split
    · exact le_refl 1
    · omega

theorem commonSubjects_length_le (r c : Profile) :
    (commonSubjects r c).length ≤ max (lengthOr1 c.subjects) (lengthOr1 r.subjects) := by
  cases hc : c.subjects with
  | none => simp [commonSubjects, hc]
  | some cs =>
    rcases Nat.eq_zero_or_pos cs.length with h0 | hpos
    · have hnil : cs = [] := List.length_eq_zero.1 h0
      subst hnil
      simp [commonSubjects, hc]
    · have h1 : (cs.filter (matchesRequesterSubjects r.subjects)).length ≤ cs.length :=
        List.length_filter_le _ _
      have h2 : lengthOr1 (some cs) = cs.length := by
        simp only [lengthOr1]
        rw [if_neg (by omega)]
      simp only [commonSubjects, hc, h2]
      exact le_max_of_le_left h1

theorem subjectScoreQ_nonneg (r c : Profile) : 0 ≤ subjectScoreQ r c := by
  unfold subjectScoreQ
  positivity

theorem subjectScoreQ_le_100 (r c : Profile) : subjectScoreQ r c ≤ 100 := by
  unfold subjectScoreQ
  have hD1 : 1 ≤ max (lengthOr1 c.subjects) (lengthOr1 r.subjects) :=
    le_trans (lengthOr1_pos c.subjects) (le_max_left _ _)
  have hDpos : (0 : ℚ) < ((max (lengthOr1 c.subjects) (lengthOr1 r.subjects) : ℕ) : ℚ) := by
    exact_mod_cast Nat.lt_of_lt_of_le Nat.zero_lt_one hD1
  have hle : ((commonSubjects r c).length : ℚ) ≤
      ((max (lengthOr1 c.subjects) (lengthOr1 r.subjects) : ℕ) : ℚ) := by
    exact_mod_cast commonSubjects_length_le r c
  have hdiv : ((commonSubjects r c).length : ℚ) /
      ((max (lengthOr1 c.subjects) (lengthOr1 r.subjects) : ℕ) : ℚ) ≤ 1 :=
    (div_le_one hDpos).2 hle
  nlinarith

theorem totalScoreQ_nonneg (r c : Profile) : 0 ≤ totalScoreQ r c := by
  unfold totalScoreQ
  have h1 := subjectScoreQ_nonneg r c
  have h2 := institutionScoreQ_cases r c
  have h3 := locationScoreQ_cases r c
  have h4 := yearBonus_cases r c
  rcases h2 with h2 | h2 <;> rcases h3 with h3 | h3 | h3 <;> rcases h4 with h4 | h4 <;>
    rw [h2, h3, h4] <;> nlinarith

theorem totalScoreQ_le_110 (r c : Profile) : totalScoreQ r c ≤ 110 := by
  unfold totalScoreQ
  have h1 := subjectScoreQ_le_100 r c
  have h2 := institutionScoreQ_cases r c
  have h3 := locationScoreQ_cases r c
  have h4 := yearBonus_cases r c
  rcases h2 with h2 | h2 <;> rcases h3 with h3 | h3 | h3 <;> rcases h4 with h4 | h4 <;>
    rw [h2, h3, h4] <;> nlinarith

theorem calc_reqC1_candC1 : calculateSmartCompatibility reqC1 candC1 =
    { total := 80, subject := 50, institution := 100, location := 100 } := by
  have hcs : commonSubjects reqC1 candC1 = ["Calculus II"] := by decide
  have hs : subjectScoreQ reqC1 candC1 = 50 := by
    rw [subjectScoreQ, hcs]
    norm_num [lengthOr1, reqC1, candC1]
  have hi : institutionScoreQ reqC1 candC1 = 100 := by
    simp [institutionScoreQ, reqC1, candC1]
  have hl : locationScoreQ reqC1 candC1 = 100 := by
    simp [locationScoreQ, reqC1, candC1]
  have hy : yearBonus reqC1 candC1 = 10 := by
    simp [yearBonus, reqC1, candC1]
  simp only [calculateSmartCompatibility, totalScoreQ, hs, hi, hl, hy, jsRound,
    Breakdown.mk.injEq]
  norm_num

theorem commonSubjects_eq_nil (r c : Profile)
    (h : c.subjects = none ∨ c.subjects = some [] ∨
      r.subjects = none ∨ r.subjects = some []) :
    commonSubjects r c = [] := by
  rcases h with h | h | h | h
  · simp [commonSubjects, h]
  · simp [commonSubjects, h]
  · cases hc : c.subjects with
    | none => simp [commonSubjects, hc]
    | some cs => simp [commonSubjects, hc, matchesRequesterSubjects, h]
  · cases hc : c.subjects with
    | none => simp [commonSubjects, hc]
    | some cs => simp [commonSubjects, hc, matchesRequesterSubjects, h]

theorem subjectScore_zero_of_absent (r c : Profile)
    (h : c.subjects = none ∨ c.subjects = some [] ∨
      r.subjects = none ∨ r.subjects = some []) :
    (calculateSmartCompatibility r c).subject = 0 := by
  have hq : subjectScoreQ r c = 0 := by
    rw [subjectScoreQ, commonSubjects_eq_nil r c h]
    simp
  simp only [calculateSmartCompatibility, hq]
  norm_num [jsRound]

/-! ## The claims -/

/-- Claim C1, as stated by the spec, fails on the code: for the concrete
requester/candidate pair of the scenario the scorer does NOT return
subjectScore = 100 and total = 110; the single overlapping candidate
subject is divided by `max(1, 2) = 2`, so subjectScore is 50 and the
total is 80. -/
theorem claimC1_counterexample :
    ¬ ((calculateSmartCompatibility reqC1 candC1).subject = 100 ∧
       (calculateSmartCompatibility reqC1 candC1).total = 110) := by
  rw [calc_reqC1_candC1]
  intro h
  exact absurd h.1 (by decide)

/-- Claim C1 (amended): for the requester with university "A", city "X",
country "C1", year 2, subjects ["Calculus","Physics"] and the candidate
with the same university/city/country/year and subjects ["Calculus II"],
the scorer returns subjectScore = 50 (one overlap over max-cardinality 2),
institutionScore = 100, locationScore = 100, the year bonus is 10, and
total = 50*0.4 + 100*0.3 + 100*0.2 + 10 = 80. -/
theorem claimC1 :
    calculateSmartCompatibility reqC1 candC1 =
      { total := 80, subject := 50, institution := 100, location := 100 } ∧
    yearBonus reqC1 candC1 = 10 := by
  refine ⟨calc_reqC1_candC1, ?_⟩
  simp [yearBonus, reqC1, candC1]

/-- Claim C2, as stated, fails on the code: for two profiles whose
university, city and country are all absent, the institution and location
sub-scores are 100, not 0 — JavaScript `===` on two `undefined` fields
counts as a match, so an absent field does not contribute zero. -/
theorem claimC2_counterexample :
    (calculateSmartCompatibility (bareProfile "r") (bareProfile "c")).institution = 100 ∧
    (calculateSmartCompatibility (bareProfile "r") (bareProfile "c")).location = 100 ∧
    ¬ ((calculateSmartCompatibility (bareProfile "r") (bareProfile "c")).institution = 0) := by
  have hi : institutionScoreQ (bareProfile "r") (bareProfile "c") = 100 := by
    simp [institutionScoreQ, bareProfile]
  have hl : locationScoreQ (bareProfile "r") (bareProfile "c") = 100 := by
    simp [locationScoreQ, bareProfile]
  refine ⟨?_, ?_, ?_⟩ <;>
    simp only [calculateSmartCompatibility, hi, hl] <;>
    norm_num [jsRound]

/-- Claim C2 (amended): the scorer is total — every requester/candidate
pair yields a ScoreBreakdown, with no error.  An absent or empty subject
list on either side makes subjectScore zero, but absent institution and
location fields are compared for equality like ordinary values: two
absent universities yield institutionScore 100, and mismatches still earn
the flat credits (institutionScore is 60 or 100, locationScore is 30, 70
or 100), never zero. -/
theorem claimC2 : ∀ r c : Profile,
    (c.subjects = none ∨ c.subjects = some [] ∨
      r.subjects = none ∨ r.subjects = some [] →
      (calculateSmartCompatibility r c).subject = 0) ∧
    (r.university = none → c.university = none →
      (calculateSmartCompatibility r c).institution = 100) ∧
    ((calculateSmartCompatibility r c).institution = 60 ∨
      (calculateSmartCompatibility r c).institution = 100) ∧
    ((calculateSmartCompatibility r c).location = 30 ∨
      (calculateSmartCompatibility r c).location = 70 ∨
      (calculateSmartCompatibility r c).location = 100) := by
  intro r c
  refine ⟨subjectScore_zero_of_absent r c, ?_, ?_, ?_⟩
  · intro hr hc
    have hi : institutionScoreQ r c = 100 := by
      simp [institutionScoreQ, hr, hc]
    simp only [calculateSmartCompatibility, hi]
    norm_num [jsRound]
  · rcases institutionScoreQ_cases r c with h | h <;>
      [left; right] <;> (simp only [calculateSmartCompatibility, h]; norm_num [jsRound])
  · rcases locationScoreQ_cases r c with h | h | h <;>
      [left; right; (right; right)]
    all_goals simp only [calculateSmartCompatibility, h]
    all_goals norm_num [jsRound]

/-- Witness for claim C2 at a concrete pair: both subject lists empty and
both universities absent give subjectScore 0 and institutionScore 100. -/
theorem claimC2_witness :
    (calculateSmartCompatibility (bareProfile "u") (bareProfile "v")).subject = 0 ∧
    (calculateSmartCompatibility (bareProfile "u") (bareProfile "v")).institution = 100 :=
  ⟨(claimC2 (bareProfile "u") (bareProfile "v")).1 (Or.inl rfl),
   (claimC2 (bareProfile "u") (bareProfile "v")).2.1 rfl rfl⟩

/-- Claim C7: ring assignment depends only on the total: totals ≥ 90 get
ring 0 with normalized radius 0.25, totals in 80–89 get ring 1 with
radius 0.40, totals below 80 get ring 2 with radius 0.60. -/
theorem claimC7 : ∀ t : Int,
    (90 ≤ t → getCompatibilityRing t = 0 ∧ ringRadius (getCompatibilityRing t) = 0.25) ∧
    (80 ≤ t → t < 90 → getCompatibilityRing t = 1 ∧ ringRadius (getCompatibilityRing t) = 0.4) ∧
    (t < 80 → getCompatibilityRing t = 2 ∧ ringRadius (getCompatibilityRing t) = 0.6) := by
  intro t
  refine ⟨fun h => ?_, fun h1 h2 => ?_, fun h => ?_⟩
  · have hr : getCompatibilityRing t = 0 := by
      simp only [getCompatibilityRing]
      rw [if_pos (by omega)]
    exact ⟨hr, by rw [hr]; rfl⟩
  · have hr : getCompatibilityRing t = 1 := by
      simp only [getCompatibilityRing]
      rw [if_neg (by omega), if_pos (by omega)]
    exact ⟨hr, by rw [hr]; rfl⟩
  · have hr : getCompatibilityRing t = 2 := by
      simp only [getCompatibilityRing]
      rw [if_neg (by omega), if_neg (by omega)]
    exact ⟨hr, by rw [hr]; rfl⟩

/-- Witness for claim C7: totals 95 and 82 receive rings 0 and 1 and
radii 0.25 and 0.40. -/
theorem claimC7_witness :
    getCompatibilityRing 95 = 0 ∧ ringRadius (getCompatibilityRing 95) = 0.25 ∧
    getCompatibilityRing 82 = 1 ∧ ringRadius (getCompatibilityRing 82) = 0.4 :=
  ⟨((claimC7 95).1 (by norm_num)).1, ((claimC7 95).1 (by norm_num)).2,
   ((claimC7 82).2.1 (by norm_num) (by norm_num)).1,
   ((claimC7 82).2.1 (by norm_num) (by norm_num)).2⟩

theorem rank_length (r : Profile) (pool : List Profile) :
    (rank r pool).length = min 6 (excludeSelf r pool).length := by
  simp [rank, smartMatches, scoreAll]

/-- Claim C5, as stated, fails on the code: the truncation limit is not a
parameter — `startRadarScan` hardcodes `.slice(0, 6)` — so for a pool of
7 candidates and limit 7 the output length is 6, not min(7, 7) = 7. -/
theorem claimC5_counterexample :
    ¬ ((rank (bareProfile "r") poolSeven).length =
        min 7 (excludeSelf (bareProfile "r") poolSeven).length) := by
  have h1 : (excludeSelf (bareProfile "r") poolSeven).length = 7 := by decide
  rw [rank_length, h1]
  decide

/-- Claim C5 (amended): the ranked output length always equals
min(6, size of the pool with the requester removed); the limit 6 is
hardcoded in `startRadarScan` (`.slice(0, 6)`), not a parameter. -/
theorem claimC5 : ∀ (r : Profile) (pool : List Profile),
    (rank r pool).length = min 6 (excludeSelf r pool).length :=
  rank_length

/-- Claim C4: the ranking pipeline never returns a match whose identifier
equals the requester's identifier, even when the pool contains it —
`fetchPotentialPartners` filters `childSnapshot.key !==
currentUserProfile.id` before `startRadarScan` sorts and truncates. -/
theorem claimC4 : ∀ (r : Profile) (pool : List Profile),
    ∀ m ∈ rank r pool, m.1.id ≠ r.id := by
  intro r pool m hm
  simp only [rank, smartMatches] at hm
  have h1 : m ∈ (scoreAll r (excludeSelf r pool)).mergeSort scoreDesc :=
    List.mem_of_mem_take hm
  have h2 : m ∈ scoreAll r (excludeSelf r pool) :=
    (List.mergeSort_perm _ _).subset h1
  simp only [scoreAll, List.mem_map] at h2
  obtain ⟨c, hc, rfl⟩ := h2
  have h3 := (List.mem_filter.1 hc).2
  simpa using h3

/-- Witness for claim C4: with the requester itself in a two-profile
pool, the single returned match is not the requester. -/
theorem claimC4_witness :
    (bareProfile "b", calculateSmartCompatibility (bareProfile "r") (bareProfile "b")).1.id ≠
      (bareProfile "r").id := by
  have he : excludeSelf (bareProfile "r") [bareProfile "r", bareProfile "b"] =
      [bareProfile "b"] := by decide
  have hrank : rank (bareProfile "r") [bareProfile "r", bareProfile "b"] =
      [(bareProfile "b", calculateSmartCompatibility (bareProfile "r") (bareProfile "b"))] := by
    rw [rank, he]
    simp [smartMatches, scoreAll]
  exact claimC4 (bareProfile "r") [bareProfile "r", bareProfile "b"] _
    (by rw [hrank]; exact List.mem_singleton.2 rfl)

/-- Claim C9: every sub-score lies in [0, 100] and the total lies in
[0, 110], for every requester/candidate pair. -/
theorem claimC9 : ∀ r c : Profile,
    0 ≤ (calculateSmartCompatibility r c).subject ∧
    (calculateSmartCompatibility r c).subject ≤ 100 ∧
    0 ≤ (calculateSmartCompatibility r c).institution ∧
    (calculateSmartCompatibility r c).institution ≤ 100 ∧
    0 ≤ (calculateSmartCompatibility r c).location ∧
    (calculateSmartCompatibility r c).location ≤ 100 ∧
    0 ≤ (calculateSmartCompatibility r c).total ∧
    (calculateSmartCompatibility r c).total ≤ 110 := by
  intro r c
  have hi0 : 0 ≤ institutionScoreQ r c := by
    rcases institutionScoreQ_cases r c with h | h <;> rw [h] <;> norm_num
  have hi1 : institutionScoreQ r c ≤ 100 := by
    rcases institutionScoreQ_cases r c with h | h <;> rw [h] <;> norm_num
  have hl0 : 0 ≤ locationScoreQ r c := by
    rcases locationScoreQ_cases r c with h | h | h <;> rw [h] <;> norm_num
  have hl1 : locationScoreQ r c ≤ 100 := by
    rcases locationScoreQ_cases r c with h | h | h <;> rw [h] <;> norm_num
  refine ⟨jsRound_nonneg (subjectScoreQ_nonneg r c),
    jsRound_le_int (by exact_mod_cast subjectScoreQ_le_100 r c),
    jsRound_nonneg hi0,
    jsRound_le_int (by exact_mod_cast hi1),
    jsRound_nonneg hl0,
    jsRound_le_int (by exact_mod_cast hl1),
    jsRound_nonneg (totalScoreQ_nonneg r c),
    jsRound_le_int (by exact_mod_cast totalScoreQ_le_110 r c)⟩

theorem subjectScoreQ_append_mono (r c : Profile) (cs : List String) (s : String)
    (hcs : c.subjects = some cs)
    (hs : matchesRequesterSubjects r.subjects s = true) :
    subjectScoreQ r c ≤ subjectScoreQ r { c with subjects := some (cs ++ [s]) } := by
  have hcommon : commonSubjects r c = cs.filter (matchesRequesterSubjects r.subjects) := by
    simp [commonSubjects, hcs]
  have hcommon' : commonSubjects r { c with subjects := some (cs ++ [s]) } =
      cs.filter (matchesRequesterSubjects r.subjects) ++ [s] := by
    simp [commonSubjects, List.filter_append, hs]
  rw [subjectScoreQ, subjectScoreQ, hcommon, hcommon', hcs]
  simp only [List.length_append, List.length_singleton]
  set cnt := (cs.filter (matchesRequesterSubjects r.subjects)).length with hcnt
  set R := lengthOr1 r.subjects with hR
  have hR1 : 1 ≤ R := lengthOr1_pos r.subjects
  set A := max (lengthOr1 (some cs)) R with hA
  set B := max (lengthOr1 (some (cs ++ [s]))) R with hB
  have hlen' : lengthOr1 (some (cs ++ [s])) = cs.length + 1 := by
    simp only [lengthOr1, List.length_append, List.length_singleton]
    rw [if_neg (by omega)]
  have hcntA : cnt ≤ A := by
    have := commonSubjects_length_le r c
    rw [hcommon, hcs] at this
    exact this
  have hBA : B ≤ A + 1 := by
    rcases Nat.eq_zero_or_pos cs.length with h0 | hpos
    · have hl1 : lengthOr1 (some cs) = 1 := by simp [lengthOr1, h0]
      rw [hB, hA, hlen', hl1, h0]
      omega
    · have hl1 : lengthOr1 (some cs) = cs.length := by
        simp only [lengthOr1]
        rw [if_neg (by omega)]
      rw [hB, hA, hlen', hl1]
      omega
  have hA1 : 1 ≤ A := le_trans hR1 (le_max_right _ _)
  have hB1 : 1 ≤ B := le_trans hR1 (le_max_right _ _)
  have key : cnt * B ≤ (cnt + 1) * A := by nlinarith
  have hApos : (0 : ℚ) < (A : ℚ) := by exact_mod_cast hA1
  have hBpos : (0 : ℚ) < (B : ℚ) := by exact_mod_cast hB1
  rw [div_mul_eq_mul_div, div_mul_eq_mul_div, div_le_div_iff₀ hApos hBpos]
  have keyQ : (cnt : ℚ) * B ≤ ((cnt : ℚ) + 1) * A := by exact_mod_cast key
  push_cast
  nlinarith [keyQ]

/-- Claim C8: holding the requester and all other candidate fields fixed,
appending to the candidate's subject list one subject that
case-insensitively substring-matches some requester subject never
decreases the pair's subjectScore. -/
theorem claimC8 : ∀ (r c : Profile) (cs : List String) (s : String),
    c.subjects = some cs →
    matchesRequesterSubjects r.subjects s = true →
    (calculateSmartCompatibility r c).subject ≤
      (calculateSmartCompatibility r { c with subjects := some (cs ++ [s]) }).subject := by
  intro r c cs s hcs hs
  exact jsRound_mono (subjectScoreQ_append_mono r c cs s hcs hs)

/-- Witness for claim C8: a requester knowing "Calculus" and a candidate
with an empty subject list gaining "Calculus II" (a case-insensitive
substring match) does not lose subjectScore. -/
theorem claimC8_witness :
    (calculateSmartCompatibility reqC8 candC8).subject ≤
      (calculateSmartCompatibility reqC8 { candC8 with subjects := some ([] ++ ["Calculus II"]) }).subject :=
  claimC8 reqC8 candC8 [] "Calculus II" rfl (by decide)

theorem scoreDesc_trans : ∀ a b c : Profile × Breakdown,
    scoreDesc a b → scoreDesc b c → scoreDesc a c := by
  intro a b c hab hbc
  simp only [scoreDesc, decide_eq_true_eq] at hab hbc ⊢
  omega

theorem scoreDesc_total : ∀ a b : Profile × Breakdown,
    scoreDesc a b || scoreDesc b a := by
  intro a b
  simp only [scoreDesc, Bool.or_eq_true, decide_eq_true_eq]
  omega

theorem mergeSort_filter_total_eq (l : List (Profile × Breakdown)) (t : Int) :
    (l.mergeSort scoreDesc).filter (fun m => m.2.total == t) =
      l.filter (fun m => m.2.total == t) := by
  have hpair : (l.filter (fun m => m.2.total == t)).Pairwise (fun a b => scoreDesc a b) := by
    apply List.pairwise_of_forall_mem_list
    intro a ha b hb
    have ha' : a.2.total = t := by simpa using (List.mem_filter.1 ha).2
    have hb' : b.2.total = t := by simpa using (List.mem_filter.1 hb).2
    simp [scoreDesc, ha', hb']
  have hsub1 : List.Sublist (l.filter (fun m => m.2.total == t)) (l.mergeSort scoreDesc) :=
    List.sublist_mergeSort scoreDesc_trans scoreDesc_total hpair (List.filter_sublist l)
  have hsub2 : List.Sublist (l.filter (fun m => m.2.total == t))
      ((l.mergeSort scoreDesc).filter (fun m => m.2.total == t)) := by
    have h := hsub1.filter (fun m => m.2.total == t)
    simpa [List.filter_filter] using h
  have hlen : ((l.mergeSort scoreDesc).filter (fun m => m.2.total == t)).length =
      (l.filter (fun m => m.2.total == t)).length :=
    ((List.mergeSort_perm l scoreDesc).filter _).length_eq
  exact (hsub2.eq_of_length hlen.symm).symm

/-- Claim C6: the ranked output is ordered by total descending, and the
sort is stable — for every total value, the matches carrying that total
appear in the output in the same relative order (a sublist) as the scored
pool, which itself is in pool order. -/
theorem claimC6 : ∀ (r : Profile) (pool : List Profile),
    List.Pairwise (fun a b : Profile × Breakdown => b.2.total ≤ a.2.total) (rank r pool) ∧
    ∀ t : Int, List.Sublist ((rank r pool).filter (fun m => m.2.total == t))
      ((scoreAll r (excludeSelf r pool)).filter (fun m => m.2.total == t)) := by
  intro r pool
  constructor
  · have hs := List.sorted_mergeSort scoreDesc_trans scoreDesc_total
      (scoreAll r (excludeSelf r pool))
    have hsub : List.Sublist (rank r pool)
        ((scoreAll r (excludeSelf r pool)).mergeSort scoreDesc) := by
      simp only [rank, smartMatches]
      exact List.take_sublist _ _
    exact (hs.sublist hsub).imp (fun h => by simpa [scoreDesc] using h)
  · intro t
    have h1 : List.Sublist ((rank r pool).filter (fun m => m.2.total == t))
        (((scoreAll r (excludeSelf r pool)).mergeSort scoreDesc).filter
          (fun m => m.2.total == t)) := by
      simp only [rank, smartMatches]
      exact (List.take_sublist _ _).filter _
    rw [mergeSort_filter_total_eq] at h1
    exact h1

theorem doPair_snd_true (s : Array Pos × Bool) (j k : Nat) (h : s.2 = true) :
    (doPair s j k).2 = true := by
  unfold doPair
  split
  · split
    · rfl
    · exact h
  · exact h

theorem foldl_doPair_snd_true (L : List (Nat × Nat)) (s : Array Pos × Bool)
    (h : s.2 = true) :
    (L.foldl (fun s p => doPair s p.1 p.2) s).2 = true := by
  induction L generalizing s with
  | nil => exact h
  | cons a L ih => exact ih _ (doPair_snd_true _ _ _ h)

theorem foldl_doPair_false (L : List (Nat × Nat)) (ps : Array Pos)
    (h : (L.foldl (fun s p => doPair s p.1 p.2) (ps, false)).2 = false) :
    (L.foldl (fun s p => doPair s p.1 p.2) (ps, false)).1 = ps ∧
    ∀ p ∈ L, ∀ (hj : p.1 < ps.size) (hk : p.2 < ps.size),
      MARGIN ≤ distR (ps.get ⟨p.1, hj⟩) (ps.get ⟨p.2, hk⟩) := by
  induction L with
  | nil => exact ⟨rfl, by simp⟩
  | cons a L ih =>
    rw [List.foldl_cons] at h ⊢
    by_cases hjk : a.1 < ps.size ∧ a.2 < ps.size
    · by_cases hcol : distR (ps.get ⟨a.1, hjk.1⟩) (ps.get ⟨a.2, hjk.2⟩) < MARGIN
      · have hres : (doPair (ps, false) a.1 a.2).2 = true := by
          unfold doPair
          rw [dif_pos hjk, if_pos hcol]
        have htrue := foldl_doPair_snd_true L _ hres
        rw [htrue] at h
        cases h
      · have heq : doPair (ps, false) a.1 a.2 = (ps, false) := by
          unfold doPair
          rw [dif_pos hjk, if_neg hcol]
        rw [heq] at h ⊢
        obtain ⟨h1, h2⟩ := ih h
        refine ⟨h1, ?_⟩
        intro p hp hj hk
        rcases List.mem_cons.1 hp with rfl | hmem
        · exact le_of_not_lt hcol
        · exact h2 p hmem hj hk
    · have heq : doPair (ps, false) a.1 a.2 = (ps, false) := by
        unfold doPair
        rw [dif_neg hjk]
      rw [heq] at h ⊢
      obtain ⟨h1, h2⟩ := ih h
      refine ⟨h1, ?_⟩
      intro p hp hj hk
      rcases List.mem_cons.1 hp with rfl | hmem
      · exact absurd ⟨hj, hk⟩ hjk
      · exact h2 p hmem hj hk

theorem mem_pairIdx {n j k : Nat} (hjk : j < k) (hk : k < n) : (j, k) ∈ pairIdx n := by
  unfold pairIdx
  rw [List.mem_flatMap]
  refine ⟨j, List.mem_range.2 (lt_trans hjk hk), ?_⟩
  rw [List.mem_map]
  refine ⟨k, ?_, rfl⟩
  rw [List.mem_iff_getElem]
  refine ⟨k - (j + 1), ?_, ?_⟩
  · simp [List.length_drop]
    omega
  · rw [List.getElem_drop]
    simp
    omega

theorem onePass_false (ps : Array Pos) (h : (onePass ps).2 = false) :
    (onePass ps).1 = ps ∧ farApart ps := by
  obtain ⟨h1, h2⟩ := foldl_doPair_false (pairIdx ps.size) ps h
  refine ⟨h1, ?_⟩
  intro j k hj hk hlt
  exact h2 (j, k) (mem_pairIdx hlt hk) hj hk

theorem runPasses_disj (fuel : Nat) (ps : Array Pos) :
    farApart (runPasses fuel ps).1 ∨ (runPasses fuel ps).2 = fuel := by
  induction fuel generalizing ps with
  | zero => exact Or.inr rfl
  | succ fuel ih =>
    rw [runPasses]
    cases hcol : (onePass ps).2 with
    | false =>
      simp only [hcol, if_false]
      obtain ⟨h1, h2⟩ := onePass_false ps hcol
      rw [h1]
      exact Or.inl h2
    | true =>
      simp only [hcol, if_true]
      rcases ih (onePass ps).1 with h | h
      · exact Or.inl h
      · exact Or.inr (by simp [h])

/-- Claim C3: after `adjustPositions` completes, either every unordered
pair of returned positions is at distance at least the margin `MARGIN`,
or the loop ran the full `MAX_ITERATIONS` passes; in particular, when the
loop exits early through the zero-collision check, every pair of the
returned list is at distance ≥ MARGIN. -/
theorem claimC3 : ∀ ps : Array Pos,
    (farApart (adjustPositions ps) ∨ adjustIterations ps = MAX_ITERATIONS) ∧
    (adjustIterations ps < MAX_ITERATIONS → farApart (adjustPositions ps)) := by
  intro ps
  have h := runPasses_disj MAX_ITERATIONS ps
  refine ⟨h, fun hlt => ?_⟩
  rcases h with h | h
  · exact h
  · rw [adjustIterations] at hlt
    omega

/-- Witness for claim C3: on the empty position array the loop exits
after a single clean pass, and the (vacuous) margin invariant holds. -/
theorem claimC3_witness : farApart (adjustPositions #[]) :=
  (claimC3 #[]).2 (by decide)

theorem repel_algebra (U V X Y c s d M : ℝ)
    (hcs : c ^ 2 + s ^ 2 = 1) (hcd : c * d = X - U) (hsd : s * d = Y - V)
    (hf : 0 ≤ (M - d) / 2) (hM : 0 ≤ M) :
    Real.sqrt (((X + c * ((M - d) / 2)) - (U - c * ((M - d) / 2))) *
        ((X + c * ((M - d) / 2)) - (U - c * ((M - d) / 2))) +
      ((Y + s * ((M - d) / 2)) - (V - s * ((M - d) / 2))) *
        ((Y + s * ((M - d) / 2)) - (V - s * ((M - d) / 2)))) = M ∧
    Real.sqrt (((X + c * ((M - d) / 2)) - X) * ((X + c * ((M - d) / 2)) - X) +
      ((Y + s * ((M - d) / 2)) - Y) * ((Y + s * ((M - d) / 2)) - Y)) = (M - d) / 2 ∧
    Real.sqrt (((U - c * ((M - d) / 2)) - U) * ((U - c * ((M - d) / 2)) - U) +
      ((V - s * ((M - d) / 2)) - V) * ((V - s * ((M - d) / 2)) - V)) = (M - d) / 2 ∧
    (X + c * ((M - d) / 2)) + (U - c * ((M - d) / 2)) = X + U ∧
    (Y + s * ((M - d) / 2)) + (V - s * ((M - d) / 2)) = Y + V ∧
    (X + c * ((M - d) / 2)) - X = -((U - c * ((M - d) / 2)) - U) ∧
    (Y + s * ((M - d) / 2)) - Y = -((V - s * ((M - d) / 2)) - V) ∧
    ((X + c * ((M - d) / 2)) - X) * (Y - V) = ((Y + s * ((M - d) / 2)) - Y) * (X - U) := by
  have hX : X = U + c * d := by linarith
  have hY : Y = V + s * d := by linarith
  subst hX
  subst hY
  have key : ∀ E : ℝ, E = M * M → Real.sqrt E = M := by
    intro E hE
    rw [hE, Real.sqrt_mul_self hM]
  have key2 : ∀ E : ℝ, E = ((M - d) / 2) * ((M - d) / 2) → Real.sqrt E = (M - d) / 2 := by
    intro E hE
    rw [hE, Real.sqrt_mul_self hf]
  refine ⟨key _ (by linear_combination (M ^ 2) * hcs),
    key2 _ (by linear_combination (((M - d) / 2) ^ 2) * hcs),
    key2 _ (by linear_combination (((M - d) / 2) ^ 2) * hcs),
    by ring, by ring, by ring, by ring, by ring⟩

theorem cos_sin_arg_mul_sqrt (dx dy : ℝ) :
    Real.cos (Complex.arg ⟨dx, dy⟩) * Real.sqrt (dx * dx + dy * dy) = dx ∧
    Real.sin (Complex.arg ⟨dx, dy⟩) * Real.sqrt (dx * dx + dy * dy) = dy := by
  by_cases hz : (⟨dx, dy⟩ : ℂ) = 0
  · have hx : dx = 0 := by
      have h := congrArg Complex.re hz
      simpa using h
    have hy : dy = 0 := by
      have h := congrArg Complex.im hz
      simpa using h
    rw [hx, hy]
    simp
  · have habs : Complex.abs ⟨dx, dy⟩ = Real.sqrt (dx * dx + dy * dy) := by
      rw [Complex.abs_apply, Complex.normSq_mk]
    have hpos : 0 < Real.sqrt (dx * dx + dy * dy) := habs ▸ Complex.abs.pos hz
    constructor
    · rw [Complex.cos_arg hz, habs]
      have hre : (⟨dx, dy⟩ : ℂ).re = dx := rfl
      rw [hre]
      exact div_mul_cancel₀ dx (ne_of_gt hpos)
    · rw [Complex.sin_arg, habs]
      have him : (⟨dx, dy⟩ : ℂ).im = dy := rfl
      rw [him]
      exact div_mul_cancel₀ dy (ne_of_gt hpos)

theorem repelPair_fst_id (pj pk : Pos) : (repelPair pj pk).1.id = pj.id := rfl

theorem repelPair_snd_id (pj pk : Pos) : (repelPair pj pk).2.id = pk.id := rfl

theorem doPair_fst_size (s : Array Pos × Bool) (j k : Nat) :
    (doPair s j k).1.size = s.1.size := by
  unfold doPair
  split
  · split
    · simp
    · rfl
  · rfl

theorem list_set_self {α : Type} (l : List α) (i : Nat) (h : i < l.length) :
    l.set i l[i] = l := by
  induction l generalizing i with
  | nil => simp at h
  | cons a l ih =>
    cases i with
    | zero => simp
    | succ n =>
      simp only [List.set_cons_succ, List.getElem_cons_succ]
      rw [ih n (by simpa using h)]

theorem doPair_map_id (s : Array Pos × Bool) (j k : Nat) :
    (doPair s j k).1.toList.map Pos.id = s.1.toList.map Pos.id := by
  unfold doPair
  split
  · rename_i hjk
    split
    · simp only [Array.toList_set, List.map_set, repelPair_fst_id, repelPair_snd_id]
      have hj1 : j < (s.1.toList.map Pos.id).length := by
        simpa [Array.length_toList] using hjk.1
      have hk1 : k < (s.1.toList.map Pos.id).length := by
        simpa [Array.length_toList] using hjk.2
      have hj' : (s.1.get ⟨j, hjk.1⟩).id = (s.1.toList.map Pos.id)[j] := by
        rw [List.getElem_map, Array.get_eq_getElem, Array.getElem_eq_getElem_toList]
      have hk' : (s.1.get ⟨k, hjk.2⟩).id = (s.1.toList.map Pos.id)[k] := by
        rw [List.getElem_map, Array.get_eq_getElem, Array.getElem_eq_getElem_toList]
      rw [hj', list_set_self _ _ hj1, hk', list_set_self _ _ hk1]
    · rfl
  · rfl

theorem onePass_map_id (ps : Array Pos) :
    (onePass ps).1.toList.map Pos.id = ps.toList.map Pos.id := by
  suffices h : ∀ (L : List (Nat × Nat)) (s : Array Pos × Bool),
      (L.foldl (fun s p => doPair s p.1 p.2) s).1.toList.map Pos.id =
        s.1.toList.map Pos.id by
    exact h _ _
  intro L
  induction L with
  | nil => intro s; rfl
  | cons a L ih =>
    intro s
    rw [List.foldl_cons, ih, doPair_map_id]

theorem onePass_size (ps : Array Pos) : (onePass ps).1.size = ps.size := by
  have h := congrArg List.length (onePass_map_id ps)
  simpa using h

/-- Claim C10: one repulsion application to a colliding pair (distance
below `MARGIN`) leaves the two points at distance exactly `MARGIN`,
moves each point by `(MARGIN - d) / 2` in opposite directions along the
line through the two points (with `atan2(0,0) = 0` fixing the direction
for coincident points), preserves the pair's midpoint and both
identifiers; and a whole pass never changes the list's length, order or
identifiers. -/
theorem claimC10 :
    (∀ pj pk : Pos, distR pj pk < MARGIN →
      distR (repelPair pj pk).1 (repelPair pj pk).2 = MARGIN ∧
      distR (repelPair pj pk).1 pj = (MARGIN - distR pj pk) / 2 ∧
      distR (repelPair pj pk).2 pk = (MARGIN - distR pj pk) / 2 ∧
      (repelPair pj pk).1.x + (repelPair pj pk).2.x = pj.x + pk.x ∧
      (repelPair pj pk).1.y + (repelPair pj pk).2.y = pj.y + pk.y ∧
      (repelPair pj pk).1.x - pj.x = -((repelPair pj pk).2.x - pk.x) ∧
      (repelPair pj pk).1.y - pj.y = -((repelPair pj pk).2.y - pk.y) ∧
      ((repelPair pj pk).1.x - pj.x) * (pj.y - pk.y) =
        ((repelPair pj pk).1.y - pj.y) * (pj.x - pk.x) ∧
      (repelPair pj pk).1.id = pj.id ∧ (repelPair pj pk).2.id = pk.id) ∧
    (∀ ps : Array Pos, (onePass ps).1.size = ps.size ∧
      (onePass ps).1.toList.map Pos.id = ps.toList.map Pos.id) := by
  constructor
  · intro pj pk h
    have h' : Real.sqrt ((pj.x - pk.x) * (pj.x - pk.x) +
        (pj.y - pk.y) * (pj.y - pk.y)) < MARGIN := h
    obtain ⟨hcd, hsd⟩ := cos_sin_arg_mul_sqrt (pj.x - pk.x) (pj.y - pk.y)
    have hcs := Real.cos_sq_add_sin_sq (Complex.arg ⟨pj.x - pk.x, pj.y - pk.y⟩)
    have hM : (0 : ℝ) ≤ MARGIN := by norm_num [MARGIN]
    have hf : 0 ≤ (MARGIN - Real.sqrt ((pj.x - pk.x) * (pj.x - pk.x) +
        (pj.y - pk.y) * (pj.y - pk.y))) / 2 := by linarith
    obtain ⟨A1, A2, A3, A4, A5, A6, A7, A8⟩ :=
      repel_algebra pk.x pk.y pj.x pj.y
        (Real.cos (Complex.arg ⟨pj.x - pk.x, pj.y - pk.y⟩))
        (Real.sin (Complex.arg ⟨pj.x - pk.x, pj.y - pk.y⟩))
        (Real.sqrt ((pj.x - pk.x) * (pj.x - pk.x) + (pj.y - pk.y) * (pj.y - pk.y)))
        MARGIN hcs hcd hsd hf hM
    exact ⟨A1, A2, A3, A4, A5, A6, A7, A8, rfl, rfl⟩
  · intro ps
    exact ⟨onePass_size ps, onePass_map_id ps⟩

/-- Witness for claim C10 at a concrete colliding pair: two coincident
points end up exactly `MARGIN` apart with their identifiers intact. -/
theorem claimC10_witness :
    distR (repelPair ⟨0, 0, "a"⟩ ⟨0, 0, "b"⟩).1 (repelPair ⟨0, 0, "a"⟩ ⟨0, 0, "b"⟩).2 =
      MARGIN ∧
    (repelPair ⟨0, 0, "a"⟩ ⟨0, 0, "b"⟩).1.id = "a" ∧
    (repelPair ⟨0, 0, "a"⟩ ⟨0, 0, "b"⟩).2.id = "b" := by
  have h := claimC10.1 ⟨0, 0, "a"⟩ ⟨0, 0, "b"⟩
    (by norm_num [distR, MARGIN, Real.sqrt_zero])
  exact ⟨h.1, h.2.2.2.2.2.2.2.2.1, h.2.2.2.2.2.2.2.2.2⟩
